import Mathlib

/-!
Verification of the realtime voice session core of the TooEarly task-list
application.  The definitions below are a shallow embedding, in Lean, of the
playback scheduler, the session controller's message dispatch, the tool
bridge, and the credential resolution found in the source (`src/types.ts`,
which concatenates the type declarations and the `App` component).

Time values (the Web Audio clock `ctx.currentTime`, the schedule cursor
`nextStartTimeRef`, fragment durations `buffer.duration`) are embedded as
rationals; JavaScript numbers carry no overflow concerns here and all
arithmetic used by the scheduler is exact on the values of interest.
-/

namespace TooEarly

/-- A `TaskRecord` of the external task list: `interface Task` in
`src/types.ts` (`id`, `text`, `completed`, `createdAt`). -/
structure Task where
  id : String
  text : String
  completed : Bool
  createdAt : Nat
  deriving Repr, DecidableEq

/-- A decoded playback fragment: the result of `decodeAudioData` on one
inbound audio message.  `sid` identifies the `AudioBufferSourceNode` created
for it; `duration` is `buffer.duration` in seconds. -/
structure Fragment where
  sid : Nat
  duration : ℚ
  deriving Repr, DecidableEq

/-- A scheduled `AudioBufferSourceNode` handle held in `audioSourcesRef`.
`stopped` records whether `source.stop()` has been called on it. -/
structure Source where
  sid : Nat
  startTime : ℚ
  duration : ℚ
  stopped : Bool
  deriving Repr, DecidableEq

/-- The playback-scheduler state owned by one session: `nextStartTimeRef`
(the schedule cursor), `audioSourcesRef` (insertion-ordered set of active
source handles) and the `isBotSpeaking` indicator. -/
structure SchedState where
  nextStartTime : ℚ
  active : List Source
  isBotSpeaking : Bool
  deriving Repr, DecidableEq

/-- Scheduler state at session start: cursor 0, no sources, not speaking. -/
def initSched : SchedState :=
  { nextStartTime := 0, active := [], isBotSpeaking := false }

/-- Marks a source handle as force-stopped (`source.stop()`). -/
def stopSource (s : Source) : Source :=
  { s with stopped := true }

/-- The audio branch of `onmessage` (src/types.ts lines 374-397): when a
message carries audio data the handler sets `isBotSpeaking` to `true`, sets
`nextStartTimeRef = max(nextStartTimeRef, ctx.currentTime)`, and then tries
to decode.  `decoded = some f` is the success path: a source is started at
the cursor, the cursor advances by the buffer's duration, and the source is
added to `audioSourcesRef`.  `decoded = none` is the `catch` path of a
failed `decodeAudioData`: only `console.error` runs, so the state updated
before the `try` is kept and nothing else changes. -/
def audioStep (clockNow : ℚ) (decoded : Option Fragment) (st : SchedState) :
    SchedState :=
  let cursor := max st.nextStartTime clockNow
  match decoded with
  | none => { st with isBotSpeaking := true, nextStartTime := cursor }
  | some f =>
      { isBotSpeaking := true
        nextStartTime := cursor + f.duration
        active := st.active ++
          [{ sid := f.sid, startTime := cursor, duration := f.duration,
             stopped := false }] }

/-- The interruption branch of `onmessage` (lines 399-405): every handle in
`audioSourcesRef` is stopped, the set is cleared, `nextStartTimeRef` is reset
to 0 and `isBotSpeaking` is set to `false`.  The first component returns the
handles as they are after `forEach(s => s.stop())`. -/
def interrupt (st : SchedState) : List Source × SchedState :=
  (st.active.map stopSource,
   { nextStartTime := 0, active := [], isBotSpeaking := false })

/-- The scheduler-visible part of `disconnectVoice` (lines 228-246): every
handle in `audioSourcesRef` is stopped, the set is cleared and
`isBotSpeaking` is set to `false`; `nextStartTimeRef` is not written. -/
def disconnectVoiceSched (st : SchedState) : List Source × SchedState :=
  (st.active.map stopSource,
   { st with active := [], isBotSpeaking := false })

/-- The `onended` callback of a source (lines 386-389): the source is removed
from `audioSourcesRef` and, if the set became empty, `isBotSpeaking` is set
to `false`. -/
def onended (sid : Nat) (st : SchedState) : SchedState :=
  let remaining := st.active.filter (fun t => t.sid ≠ sid)
  { st with
    active := remaining
    isBotSpeaking := if remaining.isEmpty then false else st.isBotSpeaking }

/-- Events that drive the scheduler: an inbound audio message (with the clock
reading at dispatch and the decode outcome), an inbound interruption message,
a source-completion callback, and a user/remote disconnect. -/
inductive SchedEvent where
  | audio (clockNow : ℚ) (decoded : Option Fragment)
  | interruptMsg
  | ended (sid : Nat)
  | disconnect
  deriving Repr, DecidableEq

/-- One event-loop reaction of the scheduler. -/
def schedStep (e : SchedEvent) (st : SchedState) : SchedState :=
  match e with
  | .audio c d => audioStep c d st
  | .interruptMsg => (interrupt st).2
  | .ended sid => onended sid st
  | .disconnect => (disconnectVoiceSched st).2

/-- Runs the scheduler from a given state through a list of events. -/
def runFrom (st : SchedState) : List SchedEvent → SchedState
  | [] => st
  | e :: es => runFrom (schedStep e st) es

/-- Runs the scheduler from the session-start state through a list of
events; its results are exactly the reachable scheduler states. -/
def runEvents (es : List SchedEvent) : SchedState :=
  runFrom initSched es

/-- Start time and duration handed to `source.start` for each message of an
uninterrupted audio sequence: the pair recorded for a message is
`(max cursor clockNow, duration)`, as in the audio branch of `onmessage`. -/
def scheduleStarts : List (ℚ × Fragment) → SchedState → List (ℚ × ℚ)
  | [], _ => []
  | (c, f) :: rest, st =>
      (max st.nextStartTime c, f.duration) ::
        scheduleStarts rest (audioStep c (some f) st)

/-- Equals `true` when every message's clock reading is at or behind the
schedule cursor at the moment that message is handled (the scheduler never
falls behind the audio clock during the sequence). -/
def clockBehind : List (ℚ × Fragment) → ℚ → Bool
  | [], _ => true
  | (c, f) :: rest, cursor =>
      decide (c ≤ cursor) && clockBehind rest (max cursor c + f.duration)

/-- Prefix test on character lists, mirroring the start of a JavaScript
`String.prototype.includes` scan. -/
def charsPre : List Char → List Char → Bool
  | [], _ => true
  | _ :: _, [] => false
  | a :: as, b :: bs => a == b && charsPre as bs

/-- Containment of `needle` in a character list, at any position. -/
def charsHas (needle : List Char) : List Char → Bool
  | [] => charsPre needle []
  | b :: bs => charsPre needle (b :: bs) || charsHas needle bs

/-- JavaScript `hay.includes(needle)`: substring containment. -/
def strIncludes (hay needle : String) : Bool :=
  charsHas needle.data hay.data

/-- JavaScript `s.toLowerCase()` on the identifier-range characters used
here: each character lowered individually. -/
def strLower (s : String) : String :=
  String.mk (s.data.map Char.toLower)

/-- The `removeTask` match predicate of the tool branch (line 417):
`t.text.toLowerCase().includes(text.toLowerCase())`. -/
def taskMatches (text : String) (t : Task) : Bool :=
  strIncludes (strLower t.text) (strLower text)

/-- JavaScript `!text.trim()`: the trimmed string is empty exactly when
every character of `text` is whitespace (in particular when `text` is
empty). -/
def jsTrimEmpty (s : String) : Bool :=
  s.data.all Char.isWhitespace

/-- The `addTask` handler (lines 162-172): a whitespace-only text is
rejected (`if (!text.trim()) return`); otherwise a new record with the given
text, `completed = false`, the fresh id and the current timestamp is
prepended.  The sound effect is outside the embedded state. -/
def addTask (newId : String) (now : Nat) (text : String) (tasks : List Task) :
    List Task :=
  if jsTrimEmpty text then tasks
  else { id := newId, text := text, completed := false, createdAt := now } ::
    tasks

/-- The `deleteTask` handler (lines 180-183): keeps every task whose id
differs from the argument. -/
def deleteTask (tid : String) (tasks : List Task) : List Task :=
  tasks.filter (fun t => t.id ≠ tid)

/-- The `clearAllTasks` handler (lines 185-188). -/
def clearAllTasks (_tasks : List Task) : List Task := []

/-- One entry of an inbound tool-call batch: `{ id, name, args }`.  The
declared schemas make `text` a required string argument of `addTask` and
`removeTask`, so the entry carries the `args.text` value (unused by the
other operations). -/
structure FunctionCall where
  fid : String
  name : String
  argText : String
  deriving Repr, DecidableEq

/-- One outbound tool response: `{ id, name, response: { result } }`. -/
structure ToolResponse where
  rid : String
  rname : String
  result : String
  deriving Repr, DecidableEq

/-- The body of the `removeTask` tool branch (lines 415-423): find the first
task whose lowered text contains the lowered argument; delete it by id and
confirm with the matched text, or report not-found with the argument. -/
def removeTaskOp (text : String) (tasks : List Task) : List Task × String :=
  match tasks.find? (taskMatches text) with
  | some t => (deleteTask t.id tasks, "Removed task: " ++ t.text)
  | none => (tasks, "Could not find task matching " ++ text)

/-- Dispatch of one tool-call entry (lines 408-441): `result` starts as
"ok"; the four known operation names overwrite it and update the task list;
any other name leaves both untouched.  The response carries the entry's id
and name. -/
def handleToolCall (newId : String) (now : Nat) (tasks : List Task)
    (fc : FunctionCall) : List Task × ToolResponse :=
  if fc.name = "addTask" then
    (addTask newId now fc.argText tasks,
     { rid := fc.fid, rname := fc.name,
       result := "Added task: " ++ fc.argText })
  else if fc.name = "removeTask" then
    let r := removeTaskOp fc.argText tasks
    (r.1, { rid := fc.fid, rname := fc.name, result := r.2 })
  else if fc.name = "getTasks" then
    let listed := String.intercalate ", " (tasks.map Task.text)
    (tasks,
     { rid := fc.fid, rname := fc.name,
       result := if listed = "" then "Your list is empty."
         else "Your list has: " ++ listed })
  else if fc.name = "clearAllTasks" then
    (clearAllTasks tasks,
     { rid := fc.fid, rname := fc.name, result := "All tasks cleared." })
  else (tasks, { rid := fc.fid, rname := fc.name, result := "ok" })

/-- The `for (const fc of msg.toolCall.functionCalls)` loop: each entry is
dispatched against the current task list and exactly one response is queued
per entry, in order.  `gen k` supplies the fresh id for the k-th entry. -/
def handleToolCalls (gen : Nat → String) (now : Nat) :
    List FunctionCall → Nat → List Task → List Task × List ToolResponse
  | [], _, tasks => (tasks, [])
  | fc :: rest, k, tasks =>
      let r := handleToolCall (gen k) now tasks fc
      let rr := handleToolCalls gen now rest (k + 1) r.1
      (rr.1, r.2 :: rr.2)

/-- Session lifecycle status relevant to fragment-level error isolation. -/
inductive SessStatus where
  | opened
  | closed
  deriving Repr, DecidableEq

/-- The session-level state visible to `onmessage`: lifecycle status, the
scheduler, and the task list reachable through `tasksRef`. -/
structure SessionState where
  status : SessStatus
  sched : SchedState
  tasks : List Task
  deriving Repr, DecidableEq

/-- The audio branch of `onmessage` at session level: it only touches the
scheduler state; a decode failure (`decoded = none`) is caught inside the
handler, so neither the lifecycle status nor the task list is involved. -/
def sessionAudio (clockNow : ℚ) (decoded : Option Fragment)
    (st : SessionState) : SessionState :=
  { st with sched := audioStep clockNow decoded st.sched }

/-- Environment of one `connectVoice` attempt (lines 248-282):
whether the `window.aistudio` key-selection capability exists and how it
answers, the stored key (`customApiKey`, loaded from the persisted
`gemini_api_key` entry), the environment key (`process.env.API_KEY`), and
what a `prompt` would return (empty string for a cancelled prompt). -/
structure ConnectEnv where
  aistudio : Bool
  hasSelectedKey : Bool
  openSelectKeySuccess : Bool
  storedKey : String
  envKey : String
  promptKey : String
  deriving Repr, DecidableEq

/-- Outcome of credential resolution: either `connectVoice` returns early
with an error and no session is opened, or it proceeds to open a session
with the resolved key; `prompted` records whether the user was prompted via
`handleSetKey`. -/
inductive ConnectOutcome where
  | fail (msg : String)
  | proceed (key : String) (prompted : Bool)
  deriving Repr, DecidableEq

/-- The credential-resolution prefix of `connectVoice` (lines 248-298).
`apiKey` starts as the stored key; if `window.aistudio` exists it is asked
first (`hasSelectedApiKey`, then `openSelectKey`, failing the attempt if no
key gets selected); then the environment key fills an empty `apiKey`; then,
only without `aistudio`, an empty `apiKey` triggers the `handleSetKey`
prompt and a re-read of the persisted entry, failing if still empty.  The
session is finally created with `apiKey || getEnvApiKey()`. -/
def connectVoice (e : ConnectEnv) : ConnectOutcome :=
  let apiKey := e.storedKey
  if e.aistudio && !e.hasSelectedKey && !e.openSelectKeySuccess then
    .fail "API Key required"
  else
    let apiKey := if apiKey = "" && e.envKey ≠ "" then e.envKey else apiKey
    if apiKey = "" && !e.aistudio then
      let apiKey := e.promptKey
      if apiKey = "" then .fail "No API Key set."
      else .proceed (if apiKey ≠ "" then apiKey else e.envKey) true
    else .proceed (if apiKey ≠ "" then apiKey else e.envKey) false

/-- Back-to-back playback: every scheduled fragment starts exactly where the
previous one ends (previous start plus previous duration). -/
def consecutiveBackToBack (l : List (ℚ × ℚ)) : Prop :=
  List.Chain' (fun a b => b.1 = a.1 + a.2) l

/-- The four operation names declared to the remote session. -/
def isKnownOp (n : String) : Bool :=
  n = "addTask" || n = "removeTask" || n = "getTasks" || n = "clearAllTasks"

/-- C2: after an interruption message, every handle that was in
`audioSourcesRef` has been force-stopped (one stop per handle), the set is
empty, `nextStartTimeRef` is 0 and the speaking indicator is `false`,
whatever the prior state was. -/
theorem interrupt_flushes (st : SchedState) :
    (∀ s ∈ (interrupt st).1, s.stopped = true) ∧
    (interrupt st).1.length = st.active.length ∧
    (interrupt st).2.active = [] ∧
    (interrupt st).2.nextStartTime = 0 ∧
    (interrupt st).2.isBotSpeaking = false := by
  refine ⟨?_, by simp [interrupt], rfl, rfl, rfl⟩
  intro s hs
  rcases List.mem_map.mp hs with ⟨t, _, rfl⟩
  rfl

/-- Witness for `interrupt_flushes` at a state with one active source. -/
theorem interrupt_flushes_witness :
    (interrupt ⟨1, [⟨3, 0, 1, false⟩], true⟩).2.nextStartTime = 0 ∧
    (interrupt ⟨1, [⟨3, 0, 1, false⟩], true⟩).2.active = [] ∧
    (interrupt ⟨1, [⟨3, 0, 1, false⟩], true⟩).2.isBotSpeaking = false ∧
    (stopSource ⟨3, 0, 1, false⟩).stopped = true := by
  have h := interrupt_flushes ⟨1, [⟨3, 0, 1, false⟩], true⟩
  exact ⟨h.2.2.2.1, h.2.2.1, h.2.2.2.2, h.1 _ (by decide)⟩

/-- C5 counterexample: `disconnectVoice` does not write `nextStartTimeRef`,
so from a state whose cursor is 1 it leaves the cursor at 1 while
`interrupt` resets it to 0 — the claim that both reset the cursor to 0 is
false. -/
theorem disconnect_cursor_cex :
    (disconnectVoiceSched
        { nextStartTime := 1, active := [], isBotSpeaking := false
          }).2.nextStartTime = 1 ∧
    (interrupt
        { nextStartTime := 1, active := [], isBotSpeaking := false
          }).2.nextStartTime = 0 ∧
    (1 : ℚ) ≠ 0 := by
  refine ⟨rfl, rfl, by norm_num⟩

/-- C5 (amended): `disconnectVoice` agrees with `interrupt()` on stopping
every active handle, emptying ActiveSources and ending the speaking state,
but it leaves `nextStartTimeRef` unchanged instead of resetting it; its
scheduler result coincides with `interrupt`'s exactly when the cursor was
already 0. -/
theorem disconnect_vs_interrupt (st : SchedState) :
    (∀ s ∈ (disconnectVoiceSched st).1, s.stopped = true) ∧
    (disconnectVoiceSched st).2.active = [] ∧
    (disconnectVoiceSched st).2.isBotSpeaking = false ∧
    (disconnectVoiceSched st).2.nextStartTime = st.nextStartTime ∧
    ((disconnectVoiceSched st).2 = (interrupt st).2 ↔
      st.nextStartTime = 0) := by
  obtain ⟨n, a, b⟩ := st
  refine ⟨?_, rfl, rfl, rfl, ?_⟩
  · intro s hs
    rcases List.mem_map.mp hs with ⟨t, _, rfl⟩
    rfl
  · simp [disconnectVoiceSched, interrupt, SchedState.mk.injEq]

/-- Witness for `disconnect_vs_interrupt` at a nonzero-cursor state. -/
theorem disconnect_vs_interrupt_witness :
    (disconnectVoiceSched
        { nextStartTime := 2, active := [⟨7, 0, 2, false⟩],
          isBotSpeaking := true }).2.active = [] ∧
    (disconnectVoiceSched
        { nextStartTime := 2, active := [⟨7, 0, 2, false⟩],
          isBotSpeaking := true }).2.nextStartTime = 2 ∧
    (stopSource ⟨7, 0, 2, false⟩).stopped = true := by
  have h := disconnect_vs_interrupt
    { nextStartTime := 2, active := [⟨7, 0, 2, false⟩], isBotSpeaking := true }
  exact ⟨h.2.1, h.2.2.2.1, h.1 _ (by decide)⟩

/-- C6 counterexample: a failed decode is not state-neutral — from a fresh
open session it flips the speaking indicator to `true` (it is set before the
`try` block) and, with the clock at 2, drags the cursor from 0 up to 2, so
"all other session and scheduler state is left unchanged" is false. -/
theorem decode_failure_changes_state_cex :
    (sessionAudio 0 none
        ⟨.opened, initSched, []⟩).sched.isBotSpeaking = true ∧
    initSched.isBotSpeaking = false ∧
    (sessionAudio 2 none ⟨.opened, initSched, []⟩).sched.nextStartTime = 2 ∧
    initSched.nextStartTime = 0 := by
  refine ⟨rfl, rfl, ?_, rfl⟩
  show max (0 : ℚ) 2 = 2
  norm_num

/-- C6 (amended): a decode failure of one inbound fragment is isolated in
the sense that the fragment is skipped — nothing is scheduled, ActiveSources
is untouched, the task list is untouched and the session does not leave the
open state — but the handler has already set the speaking indicator to
`true` and advanced the cursor to `max(cursor, clockNow)` before decoding,
and the `catch` does not undo either. -/
theorem decode_failure_isolated (st : SessionState) (c : ℚ) :
    (sessionAudio c none st).status = st.status ∧
    (sessionAudio c none st).tasks = st.tasks ∧
    (sessionAudio c none st).sched.active = st.sched.active ∧
    (sessionAudio c none st).sched.isBotSpeaking = true ∧
    (sessionAudio c none st).sched.nextStartTime =
      max st.sched.nextStartTime c :=
  ⟨rfl, rfl, rfl, rfl, rfl⟩

/-- C10: an `addTask` tool invocation with whitespace-only (or empty) text
leaves the task list unchanged — `addTask` returns before creating a record
— while the response sent back still reports "Added task: <text>"; for any
text with non-whitespace content exactly one record with that text and
`completed = false` is prepended. -/
theorem addTask_tool_spec (newId : String) (now : Nat) (text : String)
    (tasks : List Task) (fid : String) :
    (jsTrimEmpty text = true → addTask newId now text tasks = tasks) ∧
    (jsTrimEmpty text = false → addTask newId now text tasks =
      { id := newId, text := text, completed := false,
        createdAt := now } :: tasks) ∧
    (handleToolCall newId now tasks ⟨fid, "addTask", text⟩).2.result =
      "Added task: " ++ text ∧
    (handleToolCall newId now tasks ⟨fid, "addTask", text⟩).1 =
      addTask newId now text tasks := by
  refine ⟨fun h => by simp [addTask, h], fun h => by simp [addTask, h],
    by simp [handleToolCall], by simp [handleToolCall]⟩

/-- Witness for `addTask_tool_spec`: a whitespace-only text is dropped yet
acknowledged, a plain text is prepended. -/
theorem addTask_tool_spec_witness :
    addTask "n" 7 " " [] = [] ∧
    (handleToolCall "n" 7 [] ⟨"i", "addTask", " "⟩).2.result =
      "Added task: " ++ " " ∧
    addTask "n" 7 "hi" [] =
      [{ id := "n", text := "hi", completed := false, createdAt := 7 }] := by
  have h1 := addTask_tool_spec "n" 7 " " ([]) "i"
  have h2 := addTask_tool_spec "n" 7 "hi" ([]) "i"
  exact ⟨h1.1 (by decide), h1.2.2.1, h2.2.1 (by decide)⟩

/-- C9: credential resolution order of `connectVoice`.  The
externally-managed key-selection capability (`window.aistudio`) is consulted
first and its refusal fails the attempt before any other source is used;
without it, a non-empty stored key wins and no prompt is shown; an empty
stored key falls back to the environment key; with every source empty (and a
cancelled prompt) the attempt fails and no session is opened. -/
theorem connectVoice_key_resolution (e : ConnectEnv) :
    (e.aistudio = true → e.hasSelectedKey = false →
      e.openSelectKeySuccess = false →
      connectVoice e = .fail "API Key required") ∧
    (e.aistudio = false → e.storedKey ≠ "" →
      connectVoice e = .proceed e.storedKey false) ∧
    (e.aistudio = false → e.storedKey = "" → e.envKey ≠ "" →
      connectVoice e = .proceed e.envKey false) ∧
    (e.aistudio = false → e.storedKey = "" → e.envKey = "" →
      e.promptKey = "" → connectVoice e = .fail "No API Key set.") ∧
    (e.aistudio = false → e.storedKey = "" → e.envKey = "" →
      e.promptKey ≠ "" → connectVoice e = .proceed e.promptKey true) := by
  obtain ⟨a, hk, o, s, v, p⟩ := e
  refine ⟨?_, ?_, ?_, ?_, ?_⟩
  · intro h1 h2 h3
    simp only at h1 h2 h3
    subst h1; subst h2; subst h3
    simp [connectVoice]
  · intro h1 h2
    simp only at h1 h2
    subst h1
    simp [connectVoice, h2]
  · intro h1 h2 h3
    simp only at h1 h2 h3
    subst h1; subst h2
    simp [connectVoice, h3]
  · intro h1 h2 h3 h4
    simp only at h1 h2 h3 h4
    subst h1; subst h2; subst h3; subst h4
    simp [connectVoice]
  · intro h1 h2 h3 h4
    simp only at h1 h2 h3 h4
    subst h1; subst h2; subst h3
    simp [connectVoice, h4]

/-- Witness for `connectVoice_key_resolution`: a stored key with the
capability absent is used without prompting; with no source at all the
attempt fails. -/
theorem connectVoice_key_resolution_witness :
    connectVoice ⟨false, false, false, "stored", "env", "p"⟩ =
      .proceed "stored" false ∧
    connectVoice ⟨false, false, false, "", "", ""⟩ =
      .fail "No API Key set." ∧
    connectVoice ⟨true, false, false, "stored", "env", "p"⟩ =
      .fail "API Key required" := by
  refine ⟨(connectVoice_key_resolution
      ⟨false, false, false, "stored", "env", "p"⟩).2.1 rfl (by decide),
    (connectVoice_key_resolution
      ⟨false, false, false, "", "", ""⟩).2.2.2.1 rfl rfl rfl rfl,
    (connectVoice_key_resolution
      ⟨true, false, false, "stored", "env", "p"⟩).1 rfl rfl rfl⟩

/-- Helper: one tool-call dispatch always answers with the entry's own id
and name, and an unrecognized operation name leaves the default result "ok"
and the task list untouched. -/
theorem handleToolCall_resp (newId : String) (now : Nat) (tasks : List Task)
    (fc : FunctionCall) :
    (handleToolCall newId now tasks fc).2.rid = fc.fid ∧
    (handleToolCall newId now tasks fc).2.rname = fc.name ∧
    (isKnownOp fc.name = false →
      (handleToolCall newId now tasks fc).2.result = "ok" ∧
      (handleToolCall newId now tasks fc).1 = tasks) := by
  unfold handleToolCall
  split_ifs with h1 h2 h3 h4
  · exact ⟨rfl, rfl, by simp [isKnownOp, h1]⟩
  · refine ⟨rfl, rfl, by simp [isKnownOp, h2]⟩
  · exact ⟨rfl, rfl, by simp [isKnownOp, h3]⟩
  · exact ⟨rfl, rfl, by simp [isKnownOp, h4]⟩
  · exact ⟨rfl, rfl, fun _ => ⟨rfl, rfl⟩⟩

/-- C7: over any inbound tool-call batch, the loop produces exactly one
response per entry, in order (the `Forall₂` pairing forces the response list
and the entry list to have the same length); each response carries its
entry's correlation id and name; and an entry whose operation name is not
one of the four declared ones is still answered, with the default result
"ok". -/
theorem toolcalls_one_response_each (gen : Nat → String) (now k : Nat)
    (fcs : List FunctionCall) (tasks : List Task) :
    List.Forall₂
      (fun (fc : FunctionCall) (r : ToolResponse) =>
        r.rid = fc.fid ∧ r.rname = fc.name ∧
        (isKnownOp fc.name = false → r.result = "ok"))
      fcs (handleToolCalls gen now fcs k tasks).2 := by
  induction fcs generalizing k tasks with
  | nil => exact List.Forall₂.nil
  | cons fc rest ih =>
      have h := handleToolCall_resp (gen k) now tasks fc
      exact List.Forall₂.cons
        ⟨h.1, h.2.1, fun hu => (h.2.2 hu).1⟩ (ih (k + 1) _)

/-- Witness for `toolcalls_one_response_each` on a two-entry batch whose
second entry has an unknown operation name. -/
theorem toolcalls_one_response_each_witness :
    List.Forall₂
      (fun (fc : FunctionCall) (r : ToolResponse) =>
        r.rid = fc.fid ∧ r.rname = fc.name ∧
        (isKnownOp fc.name = false → r.result = "ok"))
      [⟨"i1", "addTask", "hello"⟩, ⟨"i2", "mystery", ""⟩]
      ((handleToolCalls (fun _ => "n") 0
        [⟨"i1", "addTask", "hello"⟩, ⟨"i2", "mystery", ""⟩] 0 []).2) :=
  toolcalls_one_response_each (fun _ => "n") 0 0
    [⟨"i1", "addTask", "hello"⟩, ⟨"i2", "mystery", ""⟩] []

/-- Helper: the prefix scan accepts a list against itself. -/
theorem charsPre_refl : ∀ l : List Char, charsPre l l = true
  | [] => rfl
  | a :: as => by
      rw [charsPre, beq_self_eq_true, Bool.true_and]
      exact charsPre_refl as

/-- Helper: a list is contained in anything that ends with it. -/
theorem charsHas_append_self : ∀ a b : List Char, charsHas b (a ++ b) = true
  | [], b => by
      cases b with
      | nil => rfl
      | cons c cs =>
          rw [List.nil_append, charsHas, charsPre_refl, Bool.true_or]
  | x :: xs, b => by
      rw [List.cons_append, charsHas, charsHas_append_self xs b,
        Bool.or_true]

/-- Helper: JavaScript `(a + b).includes(b)` always holds. -/
theorem strIncludes_append (a b : String) : strIncludes (a ++ b) b = true := by
  rw [strIncludes, String.data_append]
  exact charsHas_append_self a.data b.data

/-- Helper: with pairwise-distinct task ids, deleting the first
`taskMatches` hit by its id (`deleteTask`, a filter over the whole list)
removes exactly that record — it equals `List.eraseP` of the match
predicate. -/
theorem deleteTask_found_eq_eraseP (text : String) :
    ∀ (tasks : List Task) (t : Task),
    (tasks.map Task.id).Nodup →
    tasks.find? (taskMatches text) = some t →
    deleteTask t.id tasks = tasks.eraseP (taskMatches text) := by
  intro tasks
  induction tasks with
  | nil => intro t _ hf; simp at hf
  | cons hd rest ih =>
      intro t hnd hf
      have hni : hd.id ∉ rest.map Task.id := (List.nodup_cons.mp hnd).1
      by_cases hp : taskMatches text hd
      · rw [List.find?_cons_of_pos rest hp] at hf
        injection hf with hf
        subst hf
        rw [List.eraseP_cons_of_pos hp, deleteTask, List.filter_cons,
          if_neg (by simp)]
        refine List.filter_eq_self.mpr ?_
        intro u hu
        simp only [ne_eq, decide_eq_true_eq]
        intro hemp
        exact hni (hemp ▸ List.mem_map_of_mem Task.id hu)
      · rw [List.find?_cons_of_neg rest hp] at hf
        have ht : t ∈ rest := List.mem_of_find?_eq_some hf
        have hneq : hd.id ≠ t.id := by
          intro hemp
          exact hni (hemp ▸ List.mem_map_of_mem Task.id ht)
        rw [List.eraseP_cons_of_neg hp, deleteTask, List.filter_cons,
          if_pos (by simp [hneq])]
        have hr := ih t (List.nodup_cons.mp hnd).2 hf
        rw [deleteTask] at hr
        rw [hr]

/-- C8: `removeTask(text)` with pairwise-distinct task ids.  When some task
matches (`find?` returns the first task whose lowered text contains the
lowered argument), exactly that first match is deleted (`eraseP` of the
match predicate) and the result string contains the matched task's text;
when `find?` returns `none` — equivalently, no task's text contains the
argument case-insensitively — the list is unchanged and the not-found
result contains the argument. -/
theorem removeTask_spec (text : String) (tasks : List Task)
    (hnd : (tasks.map Task.id).Nodup) :
    (∀ t, tasks.find? (taskMatches text) = some t →
      (removeTaskOp text tasks).1 = tasks.eraseP (taskMatches text) ∧
      (removeTaskOp text tasks).2 = "Removed task: " ++ t.text ∧
      strIncludes (removeTaskOp text tasks).2 t.text = true) ∧
    (tasks.find? (taskMatches text) = none →
      (removeTaskOp text tasks).1 = tasks ∧
      (removeTaskOp text tasks).2 = "Could not find task matching " ++ text ∧
      strIncludes (removeTaskOp text tasks).2 text = true) ∧
    (tasks.find? (taskMatches text) = none ↔
      ∀ u ∈ tasks, ¬ taskMatches text u) := by
  refine ⟨?_, ?_, List.find?_eq_none⟩
  · intro t hf
    have h1 : removeTaskOp text tasks =
        (deleteTask t.id tasks, "Removed task: " ++ t.text) := by
      rw [removeTaskOp, hf]
    rw [h1]
    exact ⟨deleteTask_found_eq_eraseP text tasks t hnd hf, rfl,
      strIncludes_append _ _⟩
  · intro hf
    have h1 : removeTaskOp text tasks =
        (tasks, "Could not find task matching " ++ text) := by
      rw [removeTaskOp, hf]
    rw [h1]
    exact ⟨rfl, rfl, strIncludes_append _ _⟩

/-- Witness for `removeTask_spec`: "milk" removes the record "Buy milk and
eggs" and is acknowledged with it; "zzz" matches nothing and leaves the
two-task list intact. -/
theorem removeTask_spec_witness :
    (removeTaskOp "milk"
      [⟨"a", "Buy milk and eggs", false, 0⟩, ⟨"b", "Walk dog", false, 1⟩]).1 =
      [⟨"b", "Walk dog", false, 1⟩] ∧
    (removeTaskOp "milk"
      [⟨"a", "Buy milk and eggs", false, 0⟩, ⟨"b", "Walk dog", false, 1⟩]).2 =
      "Removed task: " ++ "Buy milk and eggs" ∧
    (removeTaskOp "zzz"
      [⟨"a", "Buy milk and eggs", false, 0⟩, ⟨"b", "Walk dog", false, 1⟩]).1 =
      [⟨"a", "Buy milk and eggs", false, 0⟩, ⟨"b", "Walk dog", false, 1⟩] := by
  have h1 := removeTask_spec "milk"
    [⟨"a", "Buy milk and eggs", false, 0⟩, ⟨"b", "Walk dog", false, 1⟩]
    (by decide)
  have h2 := removeTask_spec "zzz"
    [⟨"a", "Buy milk and eggs", false, 0⟩, ⟨"b", "Walk dog", false, 1⟩]
    (by decide)
  obtain ⟨ha, hb, -⟩ := h1.1 ⟨"a", "Buy milk and eggs", false, 0⟩ (by decide)
  obtain ⟨hc, -, -⟩ := h2.2.1 (by decide)
  exact ⟨by rw [ha]; decide, hb, hc⟩

/-- Helper: every start handed out by the scheduler is at or after the
cursor the sequence began with (durations are non-negative). -/
theorem scheduleStarts_ge : ∀ (msgs : List (ℚ × Fragment)) (st : SchedState),
    (∀ p ∈ msgs, 0 ≤ p.2.duration) →
    ∀ q ∈ scheduleStarts msgs st, st.nextStartTime ≤ q.1 := by
  intro msgs
  induction msgs with
  | nil => intro st _ q hq; simp [scheduleStarts] at hq
  | cons m rest ih =>
      obtain ⟨c, f⟩ := m
      intro st hdur q hq
      rw [scheduleStarts] at hq
      rcases List.mem_cons.mp hq with h | h
      · rw [h]
        exact le_max_left _ _
      · have h0 : 0 ≤ f.duration := hdur (c, f) (List.mem_cons_self _ _)
        have h1 := ih (audioStep c (some f) st)
          (fun p hp => hdur p (List.mem_cons_of_mem _ hp)) q h
        have h2 : st.nextStartTime ≤ (audioStep c (some f) st).nextStartTime := by
          show st.nextStartTime ≤ max st.nextStartTime c + f.duration
          have h3 := le_max_left st.nextStartTime c
          linarith
        exact h2.trans h1

/-- Helper: playback intervals never overlap, pairwise — every later
fragment starts at or after any earlier fragment's end. -/
theorem scheduleStarts_pairwise :
    ∀ (msgs : List (ℚ × Fragment)) (st : SchedState),
    (∀ p ∈ msgs, 0 ≤ p.2.duration) →
    List.Pairwise (fun a b : ℚ × ℚ => a.1 + a.2 ≤ b.1)
      (scheduleStarts msgs st) := by
  intro msgs
  induction msgs with
  | nil => intro st _; exact List.Pairwise.nil
  | cons m rest ih =>
      obtain ⟨c, f⟩ := m
      intro st hdur
      rw [scheduleStarts]
      refine List.Pairwise.cons ?_
        (ih _ (fun p hp => hdur p (List.mem_cons_of_mem _ hp)))
      intro q hq
      have h1 := scheduleStarts_ge rest (audioStep c (some f) st)
        (fun p hp => hdur p (List.mem_cons_of_mem _ hp)) q hq
      show max st.nextStartTime c + f.duration ≤ q.1
      exact h1

/-- Helper: while the audio clock stays at or behind the cursor, every
fragment starts exactly where the previous one ends. -/
theorem scheduleStarts_chain :
    ∀ (msgs : List (ℚ × Fragment)) (st : SchedState),
    clockBehind msgs st.nextStartTime = true →
    List.Chain' (fun a b : ℚ × ℚ => b.1 = a.1 + a.2)
      (scheduleStarts msgs st) := by
  intro msgs
  induction msgs with
  | nil => intro st _; exact trivial
  | cons m rest ih =>
      obtain ⟨c, f⟩ := m
      intro st hcb
      rw [clockBehind, Bool.and_eq_true] at hcb
      obtain ⟨hc, hrest⟩ := hcb
      rw [scheduleStarts]
      rcases rest with _ | ⟨⟨c₂, f₂⟩, r₂⟩
      · exact List.chain'_singleton _
      · have hchain := ih (audioStep c (some f) st) hrest
        rw [scheduleStarts] at hchain ⊢
        rw [List.chain'_cons]
        refine ⟨?_, hchain⟩
        rw [clockBehind, Bool.and_eq_true] at hrest
        have hc₂ : c₂ ≤ max st.nextStartTime c + f.duration :=
          of_decide_eq_true hrest.1
        show max (max st.nextStartTime c + f.duration) c₂ =
          max st.nextStartTime c + f.duration
        exact max_eq_left hc₂

/-- C1 counterexample: the back-to-back equality does not hold for every
sequence.  With the cursor at 0, a first fragment scheduled at clock 0 with
duration 1 ends at 1; if the second message arrives when the clock already
reads 5, the `max` pins its start to 5, not to 1, so "each fragment's start
time equals the previous fragment's start time plus the previous fragment's
duration" fails (a gap opens; there is still no overlap). -/
theorem schedule_back_to_back_cex :
    ¬ consecutiveBackToBack
      (scheduleStarts [(0, ⟨0, 1⟩), (5, ⟨1, 1⟩)] initSched) := by
  intro h
  have he : scheduleStarts [(0, ⟨0, 1⟩), (5, ⟨1, 1⟩)] initSched =
      [((0 : ℚ), (1 : ℚ)), (5, 1)] := by
    rw [scheduleStarts, scheduleStarts, scheduleStarts]
    norm_num [audioStep, initSched]
  rw [consecutiveBackToBack, he, List.chain'_cons] at h
  have h1 := h.1
  norm_num at h1

/-- C1 (amended): for every sequence of fragments scheduled with no
intervening `interrupt()`, no two playback intervals overlap (pairwise,
given non-negative durations); the stronger back-to-back equality —
each start equals the previous start plus the previous duration — holds
whenever the audio clock stays at or behind the cursor at each call
(`clockBehind`), and without that proviso a late fragment starts at the
clock, leaving a gap but never an overlap; and each call performs exactly
`cursor := max(cursor, clockNow)`, starts the source at `cursor`, then
advances `cursor` by the fragment's duration. -/
theorem schedule_gapless_nonoverlap (msgs : List (ℚ × Fragment))
    (st : SchedState) (hdur : ∀ p ∈ msgs, 0 ≤ p.2.duration) :
    List.Pairwise (fun a b : ℚ × ℚ => a.1 + a.2 ≤ b.1)
      (scheduleStarts msgs st) ∧
    (clockBehind msgs st.nextStartTime = true →
      consecutiveBackToBack (scheduleStarts msgs st)) ∧
    (∀ (c : ℚ) (f : Fragment) (s : SchedState),
      audioStep c (some f) s =
        { isBotSpeaking := true,
          nextStartTime := max s.nextStartTime c + f.duration,
          active := s.active ++
            [{ sid := f.sid, startTime := max s.nextStartTime c,
               duration := f.duration, stopped := false }] }) :=
  ⟨scheduleStarts_pairwise msgs st hdur,
   fun h => scheduleStarts_chain msgs st h,
   fun _ _ _ => rfl⟩

/-- Witness for `schedule_gapless_nonoverlap` on a two-fragment sequence
whose second message arrives while the clock (at 1) equals the cursor. -/
theorem schedule_gapless_nonoverlap_witness :
    List.Pairwise (fun a b : ℚ × ℚ => a.1 + a.2 ≤ b.1)
      (scheduleStarts [(0, ⟨0, 1⟩), (1, ⟨1, 1⟩)] initSched) ∧
    consecutiveBackToBack
      (scheduleStarts [(0, ⟨0, 1⟩), (1, ⟨1, 1⟩)] initSched) := by
  have h := schedule_gapless_nonoverlap [(0, ⟨0, 1⟩), (1, ⟨1, 1⟩)] initSched
    (by simp)
  exact ⟨h.1, h.2.1 (by simp [clockBehind, initSched])⟩

/-- C3 counterexample: "always ≥ the audio clock's current time" fails.
A fragment is scheduled while the clock reads 1, then an interruption
message resets the cursor to 0; the clock is non-decreasing, so it still
reads at least 1 — yet the cursor is 0, strictly below it. -/
theorem cursor_ge_clock_cex :
    (runEvents [SchedEvent.audio 1 (some ⟨0, 1⟩),
      SchedEvent.interruptMsg]).nextStartTime = 0 ∧
    ¬ ((1 : ℚ) ≤ (runEvents [SchedEvent.audio 1 (some ⟨0, 1⟩),
      SchedEvent.interruptMsg]).nextStartTime) := by
  constructor
  · rfl
  · show ¬ ((1 : ℚ) ≤ 0)
    norm_num

/-- C3 (amended): the cursor is monotone under every operation except the
explicit reset — `schedulePlayback` (the audio branch) never decreases it
and leaves it at or above the clock reading of that call, `onended` and
`disconnectVoice` never write it — and only `interrupt()` resets it, to 0;
it is not in general ≥ the clock at later instants (see the
counterexample). -/
theorem cursor_monotone_ops (st : SchedState) (c : ℚ) (dec : Option Fragment)
    (sid : Nat) (hdur : ∀ f, dec = some f → 0 ≤ f.duration) :
    st.nextStartTime ≤ (audioStep c dec st).nextStartTime ∧
    c ≤ (audioStep c dec st).nextStartTime ∧
    (onended sid st).nextStartTime = st.nextStartTime ∧
    (disconnectVoiceSched st).2.nextStartTime = st.nextStartTime ∧
    (interrupt st).2.nextStartTime = 0 := by
  have h1 : st.nextStartTime ≤ (audioStep c dec st).nextStartTime := by
    cases dec with
    | none => exact le_max_left _ _
    | some f =>
        have h0 : 0 ≤ f.duration := hdur f rfl
        show st.nextStartTime ≤ max st.nextStartTime c + f.duration
        have h3 := le_max_left st.nextStartTime c
        linarith
  have h2 : c ≤ (audioStep c dec st).nextStartTime := by
    cases dec with
    | none => exact le_max_right _ _
    | some f =>
        have h0 : 0 ≤ f.duration := hdur f rfl
        show c ≤ max st.nextStartTime c + f.duration
        have h3 := le_max_right st.nextStartTime c
        linarith
  exact ⟨h1, h2, rfl, rfl, rfl⟩

/-- Witness for `cursor_monotone_ops` with the clock at 2 and a decoded
fragment of duration 1. -/
theorem cursor_monotone_ops_witness :
    initSched.nextStartTime ≤
      (audioStep 2 (some ⟨0, 1⟩) initSched).nextStartTime ∧
    (2 : ℚ) ≤ (audioStep 2 (some ⟨0, 1⟩) initSched).nextStartTime ∧
    (interrupt initSched).2.nextStartTime = 0 := by
  have h := cursor_monotone_ops initSched 2 (some ⟨0, 1⟩) 0
    (by intro f hf; cases hf; exact zero_le_one)
  exact ⟨h.1, h.2.1, h.2.2.2.2⟩

/-- Helper: the speaking flag after `onended` is the conditional written in
the source. -/
theorem onended_speaking (sid : Nat) (st : SchedState) :
    (onended sid st).isBotSpeaking =
      if (onended sid st).active.isEmpty then false
      else st.isBotSpeaking := rfl

/-- Helper: `onended` removes exactly the sources with the ended handle's
id. -/
theorem onended_active (sid : Nat) (st : SchedState) :
    (onended sid st).active =
      st.active.filter (fun t => t.sid ≠ sid) := rfl

/-- Helper: one event step preserves "a non-empty ActiveSources forces the
speaking flag". -/
theorem schedStep_speaking_of_active (e : SchedEvent) (st : SchedState)
    (h : st.active ≠ [] → st.isBotSpeaking = true) :
    (schedStep e st).active ≠ [] → (schedStep e st).isBotSpeaking = true := by
  cases e with
  | audio c d =>
      cases d with
      | none => intro _; rfl
      | some f => intro _; rfl
  | interruptMsg => intro hne; exact absurd rfl hne
  | disconnect => intro hne; exact absurd rfl hne
  | ended sid =>
      intro hne
      rw [schedStep] at hne ⊢
      rw [onended_speaking,
        if_neg (by simpa [List.isEmpty_iff] using hne)]
      apply h
      intro hnil
      apply hne
      rw [onended_active, hnil]
      rfl

/-- Helper: one event step that is not a failed decode preserves the
speaking-iff-active invariant. -/
theorem schedStep_speaking_iff (e : SchedEvent) (st : SchedState)
    (hne : ∀ c, e ≠ SchedEvent.audio c none)
    (h : st.isBotSpeaking = true ↔ st.active ≠ []) :
    (schedStep e st).isBotSpeaking = true ↔
      (schedStep e st).active ≠ [] := by
  cases e with
  | audio c d =>
      cases d with
      | none => exact absurd rfl (hne c)
      | some f =>
          constructor
          · intro _
            show st.active ++ [_] ≠ []
            simp
          · intro _; rfl
  | interruptMsg => simp [schedStep, interrupt]
  | disconnect => simp [schedStep, disconnectVoiceSched]
  | ended sid =>
      rw [schedStep]
      constructor
      · intro hs hnil
        rw [onended_speaking, if_pos (by rw [hnil]; rfl)] at hs
        exact Bool.false_ne_true hs
      · intro hnil
        rw [onended_speaking,
          if_neg (by simpa [List.isEmpty_iff] using hnil)]
        apply h.mpr
        intro hnil2
        apply hnil
        rw [onended_active, hnil2]
        rfl

/-- Helper: the forced-speaking invariant holds along any run. -/
theorem runFrom_speaking_of_active :
    ∀ (es : List SchedEvent) (st : SchedState),
    (st.active ≠ [] → st.isBotSpeaking = true) →
    ((runFrom st es).active ≠ [] → (runFrom st es).isBotSpeaking = true) := by
  intro es
  induction es with
  | nil => intro st h; exact h
  | cons e rest ih =>
      intro st h
      exact ih _ (schedStep_speaking_of_active e st h)

/-- Helper: the speaking-iff-active invariant holds along any run free of
failed decodes. -/
theorem runFrom_speaking_iff :
    ∀ (es : List SchedEvent) (st : SchedState),
    (∀ c, SchedEvent.audio c none ∉ es) →
    (st.isBotSpeaking = true ↔ st.active ≠ []) →
    ((runFrom st es).isBotSpeaking = true ↔ (runFrom st es).active ≠ []) := by
  intro es
  induction es with
  | nil => intro st _ h; exact h
  | cons e rest ih =>
      intro st hes h
      have he : ∀ c, e ≠ SchedEvent.audio c none := by
        intro c heq
        exact hes c (by rw [heq]; exact List.mem_cons_self _ _)
      exact ih _ (fun c hc => hes c (List.mem_cons_of_mem _ hc))
        (schedStep_speaking_iff e st he h)

/-- C4 counterexample: the "iff" fails at a reachable state.  The very
first inbound audio message fails to decode: the handler has already set
`isBotSpeaking` to `true`, the `catch` schedules nothing, and
`audioSourcesRef` stays empty — speaking is indicated with no fragment
successfully scheduled. -/
theorem speaking_iff_cex :
    (runEvents [SchedEvent.audio 0 none]).isBotSpeaking = true ∧
    (runEvents [SchedEvent.audio 0 none]).active = [] :=
  ⟨rfl, rfl⟩

/-- C4 (amended): at every reachable state, a non-empty ActiveSources
forces the speaking indicator; the full "speaking iff non-empty"
equivalence holds on every run in which no audio message fails to decode —
a failed decode is the one step that sets the indicator without scheduling
anything. -/
theorem speaking_active_invariant (es : List SchedEvent) :
    ((runEvents es).active ≠ [] → (runEvents es).isBotSpeaking = true) ∧
    ((∀ c, SchedEvent.audio c none ∉ es) →
      ((runEvents es).isBotSpeaking = true ↔ (runEvents es).active ≠ [])) :=
  ⟨runFrom_speaking_of_active es initSched (fun h => absurd rfl h),
   fun hes => runFrom_speaking_iff es initSched hes (by simp [initSched])⟩

/-- Witness for `speaking_active_invariant` on a one-message run with a
successful decode. -/
theorem speaking_active_invariant_witness :
    (runEvents [SchedEvent.audio 0 (some ⟨0, 1⟩)]).isBotSpeaking = true ∧
    ((runEvents [SchedEvent.audio 0 (some ⟨0, 1⟩)]).isBotSpeaking = true ↔
      (runEvents [SchedEvent.audio 0 (some ⟨0, 1⟩)]).active ≠ []) := by
  have h := speaking_active_invariant [SchedEvent.audio 0 (some ⟨0, 1⟩)]
  refine ⟨h.1 ?_, h.2 ?_⟩
  · show initSched.active ++ [_] ≠ []
    simp
  · intro c
    simp

end TooEarly
